import Mathlib

/-!
Shallow embedding of src/src/kernel.cpp (Eccoin proof-of-stake kernel).

Modelling conventions:
- 256-bit values (uint256, arith_uint256) are natural numbers; arithmetic that
  the source performs modulo a machine width carries an explicit `% 2 ^ w`.
- The serialization stream (CDataStream with SER_GETHASH) is a list of tagged
  field values, written in source order; the cryptographic hash over the stream
  is an arbitrary function supplied by the environment, since the claims only
  concern which fields are hashed and in which order.
- External collaborators (chain index, block storage, transaction lookup,
  transaction index, signature verifier, difficulty provider, consensus
  parameters) are fields of an `Env` record, per the external interfaces of the
  specification; the kernel code itself is translated from the source.
- The C++ functions report failure as a bare `false` plus a log line; each
  distinct failure return site is tagged here with the error kind the
  specification assigns to it.  Undefined behaviour in the source (null
  pointer dereference, out-of-bounds vector indexing) is modelled as the
  distinguished outcomes `ubNullDeref` and `ubOutOfBounds`.
- By-reference output parameters (`uint256 &`) are threaded explicitly: each
  embedded function takes the incoming value of the reference and returns the
  pair of the status and the final value of the reference.
-/

/-- Tagged field value written to a CDataStream hashing stream: a 256-bit
field or a 32-bit field, in source order. -/
inductive SerItem where
  | u256 (v : Nat)
  | u32 (v : Nat)
deriving DecidableEq

/-- Modelled from the spec: BlockIndexRef, the read-only consumed view of a
block position on the active chain (the CBlockIndex class is not part of this
repository fragment).  Fields consumed by kernel.cpp: height, block hash,
stored stake modifier, stored proof-of-stake hash, and the link to the
previous indexed block. -/
inductive BlockIndex where
  | mk (nHeight : Nat) (hashVal : Nat) (nStakeModifier : Nat)
      (hashProofOfStake : Nat) (pprev : Option BlockIndex)

/-- Structural (content) equality test on block index entries; the source
compares CBlockIndex pointers, which structural equality soundly models for
the purposes of this development. -/
def BlockIndex.beq : BlockIndex → BlockIndex → Bool
  | .mk h1 x1 s1 f1 none, .mk h2 x2 s2 f2 none =>
      h1 == h2 && x1 == x2 && s1 == s2 && f1 == f2
  | .mk h1 x1 s1 f1 (some a), .mk h2 x2 s2 f2 (some b) =>
      h1 == h2 && x1 == x2 && s1 == s2 && f1 == f2 && BlockIndex.beq a b
  | _, _ => false

def BlockIndex.beqIffEq : ∀ a b : BlockIndex, BlockIndex.beq a b = true ↔ a = b
  | .mk h1 x1 s1 f1 none, .mk h2 x2 s2 f2 none => by
      simp [BlockIndex.beq]
      tauto
  | .mk h1 x1 s1 f1 none, .mk h2 x2 s2 f2 (some b) => by
      simp [BlockIndex.beq]
  | .mk h1 x1 s1 f1 (some a), .mk h2 x2 s2 f2 none => by
      simp [BlockIndex.beq]
  | .mk h1 x1 s1 f1 (some a), .mk h2 x2 s2 f2 (some b) => by
      simp [BlockIndex.beq, BlockIndex.beqIffEq a b]
      tauto

instance : DecidableEq BlockIndex :=
  fun a b => decidable_of_iff _ (BlockIndex.beqIffEq a b)

def BlockIndex.nHeight : BlockIndex → Nat
  | .mk h _ _ _ _ => h

def BlockIndex.hashVal : BlockIndex → Nat
  | .mk _ x _ _ _ => x

def BlockIndex.nStakeModifier : BlockIndex → Nat
  | .mk _ _ s _ _ => s

def BlockIndex.hashProofOfStake : BlockIndex → Nat
  | .mk _ _ _ p _ => p

def BlockIndex.pprev : BlockIndex → Option BlockIndex
  | .mk _ _ _ _ p => p

/-- Number of proper ancestors reachable through the pprev links. -/
def properAncestorCount : BlockIndex → Nat
  | .mk _ _ _ _ none => 0
  | .mk _ _ _ _ (some p) => properAncestorCount p + 1

/-- Modelled from the spec: TxOutPoint — (transaction hash, output index). -/
structure COutPoint where
  hash : Nat
  n : Nat
deriving DecidableEq

/-- Modelled from the spec: a transaction input, carrying the reference to a
previous output. -/
structure CTxIn where
  prevout : COutPoint
deriving DecidableEq

/-- Modelled from the spec: a transaction output with an integer value. -/
structure CTxOut where
  nValue : Int
deriving DecidableEq

/-- Modelled from the spec: the consumed view of a transaction — is-null,
is-coinbase and is-coinstake flags, timestamp, transaction hash, ordered
inputs and outputs (the CTransaction class is not part of this repository
fragment). -/
structure CTransaction where
  isNull : Bool
  isCoinBase : Bool
  isCoinStake : Bool
  nTime : Nat
  hash : Nat
  vin : List CTxIn
  vout : List CTxOut
deriving DecidableEq

/-- Modelled from the spec: BlockRef, the consumed view of a block — its
timestamp (GetBlockTime) and its hash (GetHash). -/
structure CBlock where
  nTime : Nat
  hash : Nat
deriving DecidableEq

/-- Error kinds for the distinct failure return sites of kernel.cpp, named
after the error taxonomy of the specification, plus the two distinguished
undefined-behaviour outcomes. -/
inductive KErr where
  | notIndexed
  | insufficientDepth
  | prevTxNotFound
  | blockReadFailed
  | timestampViolation
  | minimumAgeViolation
  | nonPositiveWeight
  | invalidTarget
  | targetNotMet
  | signatureInvalid
  | notCoinstake
  | invalidGenesisState
  | ubNullDeref
  | ubOutOfBounds
deriving DecidableEq

deriving instance DecidableEq for Except

/-- Environment: the external collaborators and consensus parameters consumed
by kernel.cpp, per the external-interface section of the specification.  The
difficulty target is carried in already-decoded form (value plus the negative
and overflow flags reported by the compact decoder), since the retarget
provider and the compact codec are external to this fragment. -/
structure Env where
  hashFn : List SerItem → Nat
  stakeMinAge : Nat
  posLimit : Nat
  nextTarget : Nat
  targetNegative : Bool
  targetOverflow : Bool
  blockIndex : List BlockIndex
  chain : List BlockIndex
  getTransaction : Nat → Option (CTransaction × Nat)
  readBlock : Nat → Option CBlock
  readTxIndex : Nat → Nat
  verifySignature : CTransaction → CTransaction → Nat → Bool → Bool

/-- LookupBlockIndex: find a block index entry by block hash. -/
def lookupBlockIndex (env : Env) (h : Nat) : Option BlockIndex :=
  env.blockIndex.find? (fun b => b.hashVal == h)

/-- CChain.Next: the successor of an index on the active chain — the entry at
height + 1, provided the index itself is the active entry at its height. -/
def chainNext (chain : List BlockIndex) (p : BlockIndex) : Option BlockIndex :=
  if chain.get? p.nHeight = some p then chain.get? (p.nHeight + 1) else none

/-- The forward-walk loop of GetKernelStakeModifier: step along next-block
links while a successor exists and blocksToGo is positive; returns the final
index together with the remaining blocksToGo counter. -/
def walkForward (chain : List BlockIndex) : Nat → BlockIndex → BlockIndex × Nat
  | 0, p => (p, 0)
  | Nat.succ n, p =>
    match chainNext chain p with
    | none => (p, Nat.succ n)
    | some q => walkForward chain n q

/-- The lookahead distance of GetKernelStakeModifier, as a function of the
height of the current chain tip: 180 once the tip has reached height 1504350,
else 5. -/
def lookahead (tip : BlockIndex) : Nat :=
  if 1504350 ≤ tip.nHeight then 180 else 5

/-- The six-value serialization of kernel.cpp lines 66-71 and 107-112: stake
modifier and proof-of-stake hash of a block, of its parent and of its
grandparent, in that fixed order. -/
def ancestorStream (p pp ppp : BlockIndex) : List SerItem :=
  [.u256 p.nStakeModifier, .u256 p.hashProofOfStake,
   .u256 pp.nStakeModifier, .u256 pp.hashProofOfStake,
   .u256 ppp.nStakeModifier, .u256 ppp.hashProofOfStake]

/-- The six-field concatenation at the end of GetKernelStakeModifier: stake
modifier and proof-of-stake hash of the given index, of its parent and of its
grandparent, hashed in that order.  The source dereferences pprev and
pprev->pprev without a guard; a missing ancestor is the undefined-behaviour
outcome. -/
def ancestorTupleHash (env : Env) (p : BlockIndex) : Except KErr Unit × Nat :=
  match p.pprev with
  | none => (.error .ubNullDeref, 0)
  | some pp =>
    match pp.pprev with
    | none => (.error .ubNullDeref, 0)
    | some ppp => (.ok (), env.hashFn (ancestorStream p pp ppp))

/-- GetKernelStakeModifier (kernel.cpp lines 41-75).  The incoming value of
the by-reference output is ignored: the source calls SetNull on entry, so
every failure return leaves the null modifier. -/
def GetKernelStakeModifier (env : Env) (hashBlockFrom : Nat)
    (_nStakeModifierIn : Nat) : Except KErr Unit × Nat :=
  match lookupBlockIndex env hashBlockFrom with
  | none => (.error .notIndexed, 0)
  | some pindex =>
    match env.chain.getLast? with
    | none => (.error .ubNullDeref, 0)
    | some tip =>
      if 0 < (walkForward env.chain (lookahead tip) pindex).2 then
        (.error .insufficientDepth, 0)
      else
        ancestorTupleHash env (walkForward env.chain (lookahead tip) pindex).1

/-- ComputeNextStakeModifier (kernel.cpp lines 90-149). -/
def ComputeNextStakeModifier (env : Env) (pindexPrev : Option BlockIndex)
    (tx : CTransaction) (_nStakeModifierIn : Nat) : Except KErr Unit × Nat :=
  if tx.isNull = true then
    match pindexPrev with
    | none => (.ok (), 0)
    | some _ => (.error .invalidGenesisState, 0)
  else if tx.isCoinBase = true then
    match pindexPrev with
    | none => (.error .ubNullDeref, 0)
    | some p =>
      match p.pprev with
      | none => (.ok (), 0)
      | some pp =>
        match pp.pprev with
        | none => (.ok (), 0)
        | some ppp => (.ok (), env.hashFn (ancestorStream p pp ppp))
  else
    match tx.vin.get? 0 with
    | none => (.error .ubOutOfBounds, 0)
    | some txin =>
      match env.getTransaction txin.prevout.hash with
      | none => (.error .prevTxNotFound, 0)
      | some (_txPrev, blockHashOfTx) =>
        match env.readBlock blockHashOfTx with
        | none => (.error .blockReadFailed, 0)
        | some block => GetKernelStakeModifier env block.hash 0

/-- Conversion of an int64_t through the uint64_t constructor of
arith_uint256: the value modulo 2 ^ 64. -/
def natOfUInt64 (z : Int) : Nat :=
  (z % (2 ^ 64 : Nat)).toNat

/-- Number of zero digits in the fixed-width 64-digit hexadecimal rendering
(arith_uint256 GetHex) of a 256-bit value: the count of zero nibbles among
the 64 nibble positions. -/
def countZeroHexDigits (x : Nat) : Nat :=
  ((List.range 64).filter (fun i => x / 16 ^ i % 16 == 0)).length

/-- The post-fork target-reduction block of CheckStakeKernelHash (kernel.cpp
lines 220-264): decode-validity check on the target, then comparison of the
hash shifted right by 20 bits and then by 64 minus the zero-digit count of
the reduction value. -/
def postForkTargetCheck (env : Env) (nTimeWeight nValueIn : Int)
    (hashPoS : Nat) : Except KErr Unit :=
  if env.targetNegative = true ∨ env.nextTarget = 0 ∨ env.targetOverflow = true
      ∨ env.posLimit < env.nextTarget then
    .error .invalidTarget
  else if env.nextTarget <
      hashPoS / 2 ^ 20 /
        2 ^ (64 - countZeroHexDigits
          ((natOfUInt64 nTimeWeight * natOfUInt64 nValueIn) % 2 ^ 256)) then
    .error .targetNotMet
  else
    .ok ()

/-- The kernel serialization of kernel.cpp lines 215-217: stake modifier,
block timestamp of the block holding the previous transaction, transaction
offset inside that block, previous-transaction timestamp, output index of the
staked outpoint, candidate timestamp, in that fixed order. -/
def kernelStream (sm nTimeBlockFrom nTxPrevOffset prevTxTime outIndex nTimeTx : Nat) :
    List SerItem :=
  [.u256 sm, .u32 nTimeBlockFrom, .u32 nTxPrevOffset, .u32 prevTxTime,
   .u32 outIndex, .u32 nTimeTx]

/-- CheckStakeKernelHash (kernel.cpp lines 175-267).  The pair carries the
status and the final value of the by-reference hashProofOfStake output; early
returns leave the incoming value untouched, and the hash is assigned before
the height-gated branch, so it is visible to the caller on both sides of the
branch. -/
def CheckStakeKernelHash (env : Env) (nHeight : Int) (blockFrom : CBlock)
    (nTxPrevOffset : Nat) (txPrev : CTransaction) (prevout : COutPoint)
    (nTimeTx : Nat) (hashProofOfStake : Nat) : Except KErr Unit × Nat :=
  if nTimeTx < txPrev.nTime then
    (.error .timestampViolation, hashProofOfStake)
  else if nTimeTx < (blockFrom.nTime + env.stakeMinAge) % 4294967296 then
    (.error .minimumAgeViolation, hashProofOfStake)
  else
    match txPrev.vout.get? prevout.n with
    | none => (.error .ubOutOfBounds, hashProofOfStake)
    | some out =>
      if (nTimeTx : Int) - (txPrev.nTime : Int) - (env.stakeMinAge : Int) ≤ 0 then
        (.error .nonPositiveWeight, hashProofOfStake)
      else
        match GetKernelStakeModifier env blockFrom.hash 0 with
        | (.error e, _) => (.error e, hashProofOfStake)
        | (.ok _, nStakeModifier) =>
          ((if 1504350 < nHeight then
              postForkTargetCheck env
                ((nTimeTx : Int) - (txPrev.nTime : Int) - (env.stakeMinAge : Int))
                out.nValue
                (env.hashFn (kernelStream nStakeModifier blockFrom.nTime
                  nTxPrevOffset txPrev.nTime prevout.n nTimeTx))
            else .ok ()),
            env.hashFn (kernelStream nStakeModifier blockFrom.nTime
              nTxPrevOffset txPrev.nTime prevout.n nTimeTx))

/-- CheckProofOfStake (kernel.cpp lines 270-323). -/
def CheckProofOfStake (env : Env) (nHeight : Int) (tx : CTransaction)
    (hashProofOfStake : Nat) : Except KErr Unit × Nat :=
  if tx.isCoinStake = true then
    match tx.vin.get? 0 with
    | none => (.error .ubOutOfBounds, hashProofOfStake)
    | some txin =>
      match env.getTransaction txin.prevout.hash with
      | none => (.error .prevTxNotFound, hashProofOfStake)
      | some (txPrev, blockHashOfTx) =>
        if env.verifySignature txPrev tx 0 true = true then
          match env.readBlock blockHashOfTx with
          | none => (.error .blockReadFailed, hashProofOfStake)
          | some block =>
            if nHeight < 1505775 then
              CheckStakeKernelHash env nHeight block
                ((env.readTxIndex txPrev.hash + 80) % 4294967296) txPrev
                txin.prevout tx.nTime hashProofOfStake
            else
              CheckStakeKernelHash env nHeight block
                (env.readTxIndex txPrev.hash) txPrev
                txin.prevout tx.nTime hashProofOfStake
        else
          (.error .signatureInvalid, hashProofOfStake)
  else
    (.error .notCoinstake, hashProofOfStake)

/-- Well-formed chain segment: the entries of the list carry consecutive
heights starting at the given one, and each entry links back to its
predecessor through pprev (the first back to the given previous index). -/
def wfFrom (i : Nat) (p : Option BlockIndex) : List BlockIndex → Bool
  | [] => true
  | b :: rest => b.nHeight == i && b.pprev == p && wfFrom (i + 1) (some b) rest

/-- A six-block well-formed test chain, heights 0 to 5, block hashes 100 to
105, pairwise distinct modifier and proof-hash fields. -/
def b0 : BlockIndex := .mk 0 100 11 21 none

def b1 : BlockIndex := .mk 1 101 12 22 (some b0)

def b2 : BlockIndex := .mk 2 102 13 23 (some b1)

def b3 : BlockIndex := .mk 3 103 14 24 (some b2)

def b4 : BlockIndex := .mk 4 104 15 25 (some b3)

def b5 : BlockIndex := .mk 5 105 16 26 (some b4)

def testChain : List BlockIndex := [b0, b1, b2, b3, b4, b5]

/-- Concrete environment for evaluating the embedding: the test chain is both
the index and the active chain, the stream hash is the stream length, the
decoded target is 5 under a posLimit of 10, and the stake minimum age is 50
seconds. -/
def testEnv : Env :=
  { hashFn := fun l => l.length
    stakeMinAge := 50
    posLimit := 10
    nextTarget := 5
    targetNegative := false
    targetOverflow := false
    blockIndex := testChain
    chain := testChain
    getTransaction := fun _ => none
    readBlock := fun _ => none
    readTxIndex := fun _ => 0
    verifySignature := fun _ _ _ _ => true }

/-- Test block containing the previous transaction: timestamp 100, block hash
100 (the hash of b0, so the modifier walk resolves). -/
def bfTest : CBlock := { nTime := 100, hash := 100 }

/-- Test previous transaction: timestamp 100, one output of value 7. -/
def ptxTest : CTransaction :=
  { isNull := false, isCoinBase := false, isCoinStake := false
    nTime := 100, hash := 77, vin := [], vout := [{ nValue := 7 }] }

/-- Test outpoint selecting output 0 of ptxTest. -/
def poTest : COutPoint := { hash := 77, n := 0 }

/-- Test coinstake transaction spending output 0 of ptxTest. -/
def stakeTx : CTransaction :=
  { isNull := false, isCoinBase := false, isCoinStake := true
    nTime := 151, hash := 55, vin := [{ prevout := { hash := 77, n := 0 } }], vout := [] }

/-- Environment in which the external lookups for stakeTx succeed: the
previous transaction is found in block 400, which reads back as bfTest, and
the transaction index reports byte offset 1000. -/
def env5 : Env :=
  { testEnv with
    getTransaction := fun h => if h == 77 then some (ptxTest, 400) else none
    readBlock := fun h => if h == 400 then some bfTest else none
    readTxIndex := fun _ => 1000 }

/-- Test coinbase transaction (empty input and output lists, as a coinbase
body is irrelevant to the modifier computation). -/
def coinbaseTx : CTransaction :=
  { isNull := false, isCoinBase := true, isCoinStake := false
    nTime := 0, hash := 0, vin := [], vout := [] }

/-- Variant of bfTest whose block timestamp is 0 while the previous
transaction timestamp stays 100. -/
def bfZero : CBlock := { nTime := 0, hash := 100 }

/-- Transaction with no inputs and no outputs, neither null nor coinbase nor
coinstake. -/
def oobTx : CTransaction :=
  { isNull := false, isCoinBase := false, isCoinStake := false
    nTime := 0, hash := 0, vin := [], vout := [] }

/-- The same inputless transaction flagged as a coinstake. -/
def oobStakeTx : CTransaction :=
  { isNull := false, isCoinBase := false, isCoinStake := true
    nTime := 0, hash := 0, vin := [], vout := [] }

/-- Outpoint selecting output 0 of a transaction with no outputs. -/
def oobPo : COutPoint := { hash := 0, n := 0 }

/-- Block record for the out-of-bounds scenario. -/
def oobBlock : CBlock := { nTime := 0, hash := 0 }

/-- A six-entry chain whose entries carry consecutive heights but whose pprev
links are all absent: the forward walk along the active-chain list succeeds,
yet the landing entry has no parent. -/
def f0 : BlockIndex := .mk 0 300 51 61 none

def f1 : BlockIndex := .mk 1 301 52 62 none

def f2 : BlockIndex := .mk 2 302 53 63 none

def f3 : BlockIndex := .mk 3 303 54 64 none

def f4 : BlockIndex := .mk 4 304 55 65 none

def f5 : BlockIndex := .mk 5 305 56 66 none

def flatChain : List BlockIndex := [f0, f1, f2, f3, f4, f5]

/-- Environment whose active chain is the flat (link-free) chain. -/
def flatEnv : Env :=
  { testEnv with blockIndex := flatChain, chain := flatChain }

/-- Entries of a well-formed chain segment carry consecutive heights. -/
theorem wfFrom_height (c : List BlockIndex) :
    ∀ (i : Nat) (p : Option BlockIndex), wfFrom i p c = true →
      ∀ (j : Nat) (b : BlockIndex), c.get? j = some b → b.nHeight = i + j := by
  induction c with
  | nil =>
    intro i p _ j b hj
    simp at hj
  | cons hd tl ih =>
    intro i p hw j b hj
    simp only [wfFrom, Bool.and_eq_true, beq_iff_eq] at hw
    obtain ⟨⟨hw1, _hw2⟩, hw3⟩ := hw
    cases j with
    | zero =>
      simp only [List.get?] at hj
      cases hj
      omega
    | succ k =>
      simp only [List.get?] at hj
      have := ih (i + 1) (some hd) hw3 k b hj
      omega

/-- Entries of a well-formed chain segment link back to their predecessor. -/
theorem wfFrom_pprev (c : List BlockIndex) :
    ∀ (i : Nat) (p : Option BlockIndex), wfFrom i p c = true →
      ∀ (j : Nat) (b : BlockIndex), c.get? j = some b →
        b.pprev = (if j = 0 then p else c.get? (j - 1)) := by
  induction c with
  | nil =>
    intro i p _ j b hj
    simp at hj
  | cons hd tl ih =>
    intro i p hw j b hj
    simp only [wfFrom, Bool.and_eq_true, beq_iff_eq] at hw
    obtain ⟨⟨_hw1, hw2⟩, hw3⟩ := hw
    cases j with
    | zero =>
      simp only [List.get?] at hj
      cases hj
      simpa using hw2
    | succ k =>
      simp only [List.get?] at hj
      have hk := ih (i + 1) (some hd) hw3 k b hj
      cases k with
      | zero =>
        simpa using hk
      | succ m =>
        simp only [if_neg (Nat.succ_ne_zero m)] at hk
        simpa [List.get?] using hk

/-- Unfolding equation for one step of the forward-walk loop. -/
theorem walkForward_succ (c : List BlockIndex) (n : Nat) (p : BlockIndex) :
    walkForward c (n + 1) p =
      match chainNext c p with
      | none => (p, n + 1)
      | some q => walkForward c n q := rfl

/-- Behaviour of the forward-walk loop on a well-formed chain: started at the
entry of height i with fuel n, it lands on the entry of height i + n with the
counter exhausted when that entry exists, and stops with a positive counter
when the chain is too short. -/
theorem walkForward_spec (c : List BlockIndex) (hwf : wfFrom 0 none c = true) :
    ∀ (n i : Nat) (p : BlockIndex), c.get? i = some p →
      (∀ q, c.get? (i + n) = some q → walkForward c n p = (q, 0)) ∧
      (c.get? (i + n) = none → 0 < (walkForward c n p).2) := by
  intro n
  induction n with
  | zero =>
    intro i p hp
    constructor
    · intro q hq
      rw [Nat.add_zero, hp] at hq
      cases hq
      rfl
    · intro hq
      rw [Nat.add_zero, hp] at hq
      cases hq
  | succ m ih =>
    intro i p hp
    have hh : p.nHeight = i := by
      simpa using wfFrom_height c 0 none hwf i p hp
    have hnext : chainNext c p = c.get? (i + 1) := by
      unfold chainNext
      rw [hh, if_pos hp]
    cases h1 : c.get? (i + 1) with
    | none =>
      have hlen : c.length ≤ i + 1 := List.get?_eq_none.mp h1
      have hnone : c.get? (i + (m + 1)) = none := List.get?_eq_none.mpr (by omega)
      have heq : walkForward c (m + 1) p = (p, m + 1) := by
        rw [walkForward_succ, hnext, h1]
      constructor
      · intro q hq
        rw [hnone] at hq
        cases hq
      · intro _
        rw [heq]
        simp
    | some q1 =>
      have hrec := ih (i + 1) q1 h1
      have heq : walkForward c (m + 1) p = walkForward c m q1 := by
        rw [walkForward_succ, hnext, h1]
      have hidx : i + 1 + m = i + (m + 1) := by omega
      constructor
      · intro q hq
        rw [heq]
        exact hrec.1 q (by rw [hidx]; exact hq)
      · intro hq
        rw [heq]
        exact hrec.2 (by rw [hidx]; exact hq)

/-- On a well-formed active chain, GetKernelStakeModifier resolves the
reference block, walks exactly the lookahead distance forward, and either
reads the six ancestor fields of the landing block or fails with
insufficient depth when the chain is too short. -/
theorem gksm_onChain (env : Env) (tip p : BlockIndex) (hashFrom x i : Nat)
    (hwf : wfFrom 0 none env.chain = true)
    (htip : env.chain.getLast? = some tip)
    (hlook : lookupBlockIndex env hashFrom = some p)
    (hpos : env.chain.get? i = some p) :
    (∀ q, env.chain.get? (i + lookahead tip) = some q →
        GetKernelStakeModifier env hashFrom x = ancestorTupleHash env q) ∧
    (env.chain.get? (i + lookahead tip) = none →
        GetKernelStakeModifier env hashFrom x = (.error .insufficientDepth, 0)) := by
  have hspec := walkForward_spec env.chain hwf (lookahead tip) i p hpos
  constructor
  · intro q hq
    have hw := hspec.1 q hq
    simp only [GetKernelStakeModifier, hlook, htip]
    rw [hw]
    simp
  · intro hq
    have hw := hspec.2 hq
    simp only [GetKernelStakeModifier, hlook, htip]
    rw [if_pos hw]

/-- Exhaustive shape of a GetKernelStakeModifier result: one of the three
failure kinds paired with the null modifier, or success with some modifier. -/
theorem gksm_shape (env : Env) (hashFrom x : Nat) :
    GetKernelStakeModifier env hashFrom x = (.error .notIndexed, 0) ∨
    GetKernelStakeModifier env hashFrom x = (.error .ubNullDeref, 0) ∨
    GetKernelStakeModifier env hashFrom x = (.error .insufficientDepth, 0) ∨
    ∃ m, GetKernelStakeModifier env hashFrom x = (.ok (), m) := by
  unfold GetKernelStakeModifier ancestorTupleHash
  repeat' split
  all_goals simp

/-- The only failure kinds GetKernelStakeModifier can report. -/
theorem gksm_err_mem (env : Env) (hashFrom x : Nat) (e : KErr)
    (h : (GetKernelStakeModifier env hashFrom x).1 = .error e) :
    e = .notIndexed ∨ e = .ubNullDeref ∨ e = .insufficientDepth := by
  rcases gksm_shape env hashFrom x with h1 | h1 | h1 | ⟨m, h1⟩ <;>
    (rw [h1] at h; simp_all)

/-- Every failing return of GetKernelStakeModifier leaves the null modifier
in the by-reference output. -/
theorem gksm_fail_zero (env : Env) (hashFrom x : Nat) (e : KErr)
    (h : (GetKernelStakeModifier env hashFrom x).1 = .error e) :
    (GetKernelStakeModifier env hashFrom x).2 = 0 := by
  rcases gksm_shape env hashFrom x with h1 | h1 | h1 | ⟨m, h1⟩ <;>
    (rw [h1] at h ⊢; try simp_all)

/-- The only failure kinds the post-fork target check can report. -/
theorem postFork_err_mem (env : Env) (w v : Int) (hp : Nat) (e : KErr)
    (h : postForkTargetCheck env w v hp = .error e) :
    e = .invalidTarget ∨ e = .targetNotMet := by
  unfold postForkTargetCheck at h
  by_cases ha : env.targetNegative = true ∨ env.nextTarget = 0 ∨ env.targetOverflow = true
      ∨ env.posLimit < env.nextTarget
  · rw [if_pos ha] at h
    simp_all
  · rw [if_neg ha] at h
    by_cases hb : env.nextTarget <
        hp / 2 ^ 20 /
          2 ^ (64 - countZeroHexDigits ((natOfUInt64 w * natOfUInt64 v) % 2 ^ 256))
    · rw [if_pos hb] at h
      simp_all
    · rw [if_neg hb] at h
      simp_all

/-- Exhaustive shape of a post-fork target-check result. -/
theorem postFork_shape (env : Env) (w v : Int) (hp : Nat) :
    postForkTargetCheck env w v hp = .ok () ∨
    postForkTargetCheck env w v hp = .error .invalidTarget ∨
    postForkTargetCheck env w v hp = .error .targetNotMet := by
  unfold postForkTargetCheck
  repeat' split
  all_goals simp

/-- Exhaustive shape of a CheckStakeKernelHash result: each early failure
leaves the incoming hash value in the output slot, the out-of-bounds outcome
records the failing vector access, modifier-stage failures propagate one of
the three selector failure kinds, and once the hash is assigned the status is
success or one of the two post-fork failure kinds. -/
theorem cskh_shape (env : Env) (nH : Int) (bf : CBlock) (off : Nat)
    (ptx : CTransaction) (po : COutPoint) (t hp : Nat) :
    CheckStakeKernelHash env nH bf off ptx po t hp = (.error .timestampViolation, hp) ∨
    CheckStakeKernelHash env nH bf off ptx po t hp = (.error .minimumAgeViolation, hp) ∨
    (ptx.vout.get? po.n = none ∧
      CheckStakeKernelHash env nH bf off ptx po t hp = (.error .ubOutOfBounds, hp)) ∨
    CheckStakeKernelHash env nH bf off ptx po t hp = (.error .nonPositiveWeight, hp) ∨
    (∃ e, (e = KErr.notIndexed ∨ e = KErr.ubNullDeref ∨ e = KErr.insufficientDepth) ∧
      CheckStakeKernelHash env nH bf off ptx po t hp = (.error e, hp)) ∨
    (∃ r hh, (r = Except.ok () ∨ r = Except.error KErr.invalidTarget ∨
        r = Except.error KErr.targetNotMet) ∧
      CheckStakeKernelHash env nH bf off ptx po t hp = (r, hh)) := by
  unfold CheckStakeKernelHash
  by_cases h1 : t < ptx.nTime
  · rw [if_pos h1]
    simp
  · rw [if_neg h1]
    by_cases h2 : t < (bf.nTime + env.stakeMinAge) % 4294967296
    · rw [if_pos h2]
      simp
    · rw [if_neg h2]
      cases h3 : ptx.vout.get? po.n with
      | none =>
        simp [h3]
      | some out =>
        simp only [h3]
        by_cases h4 : (t : Int) - (ptx.nTime : Int) - (env.stakeMinAge : Int) ≤ 0
        · rw [if_pos h4]
          simp
        · rw [if_neg h4]
          cases h5 : GetKernelStakeModifier env bf.hash 0 with
          | mk fst snd =>
            cases fst with
            | error e1 =>
              simp only [h5]
              have he : (GetKernelStakeModifier env bf.hash 0).1 = .error e1 := by
                rw [h5]
              rcases gksm_err_mem env bf.hash 0 e1 he with h | h | h <;> simp [h]
            | ok u =>
              cases u
              simp only [h5]
              by_cases h6 : 1504350 < nH
              · rw [if_pos h6]
                rcases postFork_shape env
                    ((t : Int) - (ptx.nTime : Int) - (env.stakeMinAge : Int)) out.nValue
                    (env.hashFn (kernelStream snd bf.nTime off ptx.nTime po.n t))
                  with hr | hr | hr <;> rw [hr] <;> simp
              · rw [if_neg h6]
                simp

/-- With the two time gates passed and the staked output in bounds, the
remaining pipeline of CheckStakeKernelHash is fully determined: weight gate,
modifier lookup, hash assignment, and the height-gated target check. -/
theorem cskh_reach (env : Env) (bf : CBlock) (off : Nat) (ptx : CTransaction)
    (po : COutPoint) (t hp : Nat) (out : CTxOut) (sm : Nat)
    (h1 : ¬ t < ptx.nTime)
    (h2 : ¬ t < (bf.nTime + env.stakeMinAge) % 4294967296)
    (h3 : ptx.vout.get? po.n = some out)
    (h4 : ¬ ((t : Int) - (ptx.nTime : Int) - (env.stakeMinAge : Int) ≤ 0))
    (h5 : GetKernelStakeModifier env bf.hash 0 = (.ok (), sm)) :
    ∀ nH : Int,
      CheckStakeKernelHash env nH bf off ptx po t hp =
        ((if 1504350 < nH then
            postForkTargetCheck env
              ((t : Int) - (ptx.nTime : Int) - (env.stakeMinAge : Int)) out.nValue
              (env.hashFn (kernelStream sm bf.nTime off ptx.nTime po.n t))
          else .ok ()),
          env.hashFn (kernelStream sm bf.nTime off ptx.nTime po.n t)) := by
  intro nH
  unfold CheckStakeKernelHash
  rw [if_neg h1, if_neg h2]
  simp only [h3, h5]
  rw [if_neg h4]

/-- With the staked output index in bounds, CheckStakeKernelHash never takes
the out-of-bounds branch. -/
theorem cskh_no_oob (env : Env) (nH : Int) (bf : CBlock) (off : Nat)
    (ptx : CTransaction) (po : COutPoint) (t hp : Nat)
    (hlen : po.n < ptx.vout.length) :
    (CheckStakeKernelHash env nH bf off ptx po t hp).1 ≠ .error .ubOutOfBounds := by
  rcases cskh_shape env nH bf off ptx po t hp with
    h | h | ⟨hn, h⟩ | h | ⟨e, he, h⟩ | ⟨r, hh, hr, h⟩
  · rw [h]; simp
  · rw [h]; simp
  · have := List.get?_eq_none.mp hn
    omega
  · rw [h]; simp
  · rw [h]
    rcases he with rfl | rfl | rfl <;> simp
  · rw [h]
    rcases hr with rfl | rfl | rfl <;> simp

/-- Exhaustive shape of a ComputeNextStakeModifier result. -/
theorem cnsm_shape (env : Env) (p : Option BlockIndex) (tx : CTransaction) (x : Nat) :
    (∃ m, ComputeNextStakeModifier env p tx x = (.ok (), m)) ∨
    ComputeNextStakeModifier env p tx x = (.error .invalidGenesisState, 0) ∨
    ComputeNextStakeModifier env p tx x = (.error .ubNullDeref, 0) ∨
    (tx.vin.get? 0 = none ∧
      ComputeNextStakeModifier env p tx x = (.error .ubOutOfBounds, 0)) ∨
    ComputeNextStakeModifier env p tx x = (.error .prevTxNotFound, 0) ∨
    ComputeNextStakeModifier env p tx x = (.error .blockReadFailed, 0) ∨
    (∃ bh, ComputeNextStakeModifier env p tx x = GetKernelStakeModifier env bh 0) := by
  unfold ComputeNextStakeModifier
  by_cases hn : tx.isNull = true
  · rw [if_pos hn]
    cases p <;> simp
  · rw [if_neg hn]
    by_cases hc : tx.isCoinBase = true
    · rw [if_pos hc]
      cases p with
      | none => simp
      | some pb =>
        cases hp1 : pb.pprev with
        | none => simp [hp1]
        | some pp =>
          cases hp2 : pp.pprev with
          | none => simp [hp1, hp2]
          | some ppp => simp [hp1, hp2]
    · rw [if_neg hc]
      cases hv : tx.vin.get? 0 with
      | none => simp [hv]
      | some txin =>
        simp only [hv]
        cases hg : env.getTransaction txin.prevout.hash with
        | none => simp
        | some pr =>
          obtain ⟨tp, bh⟩ := pr
          simp only [hg]
          cases hb : env.readBlock bh with
          | none => simp
          | some blk =>
            simp only [hb]
            exact Or.inr (Or.inr (Or.inr (Or.inr (Or.inr (Or.inr ⟨blk.hash, rfl⟩)))))

/-- Every failing return of ComputeNextStakeModifier leaves the null modifier
in the by-reference output. -/
theorem cnsm_fail_zero (env : Env) (p : Option BlockIndex) (tx : CTransaction)
    (x : Nat) (e : KErr)
    (h : (ComputeNextStakeModifier env p tx x).1 = .error e) :
    (ComputeNextStakeModifier env p tx x).2 = 0 := by
  rcases cnsm_shape env p tx x with
    ⟨m, h1⟩ | h1 | h1 | ⟨hv, h1⟩ | h1 | h1 | ⟨bh, h1⟩
  · rw [h1] at h; simp_all
  · rw [h1]
  · rw [h1]
  · rw [h1]
  · rw [h1]
  · rw [h1]
  · rw [h1] at h ⊢
    exact gksm_fail_zero env bh 0 e h

/-- With a nonempty input list, ComputeNextStakeModifier never takes the
out-of-bounds branch. -/
theorem cnsm_no_oob (env : Env) (p : Option BlockIndex) (tx : CTransaction)
    (x : Nat) (hvin : tx.vin ≠ []) :
    (ComputeNextStakeModifier env p tx x).1 ≠ .error .ubOutOfBounds := by
  rcases cnsm_shape env p tx x with
    ⟨m, h1⟩ | h1 | h1 | ⟨hv, h1⟩ | h1 | h1 | ⟨bh, h1⟩
  · rw [h1]; simp
  · rw [h1]; simp
  · rw [h1]; simp
  · have hl := List.get?_eq_none.mp hv
    have : tx.vin = [] := List.eq_nil_of_length_eq_zero (by omega)
    exact absurd this hvin
  · rw [h1]; simp
  · rw [h1]; simp
  · rw [h1]
    intro hcon
    rcases gksm_err_mem env bh 0 _ hcon with h | h | h <;> simp_all

/-- With the coinstake flag set and all the external lookups succeeding,
CheckProofOfStake reduces to CheckStakeKernelHash with the height-gated
offset correction and all other arguments fixed. -/
theorem cpos_reach (env : Env) (tx : CTransaction) (hp : Nat) (txin : CTxIn)
    (txPrev : CTransaction) (bh : Nat) (block : CBlock)
    (hcs : tx.isCoinStake = true)
    (hvin : tx.vin.get? 0 = some txin)
    (hgt : env.getTransaction txin.prevout.hash = some (txPrev, bh))
    (hsig : env.verifySignature txPrev tx 0 true = true)
    (hrb : env.readBlock bh = some block) :
    ∀ nH : Int,
      CheckProofOfStake env nH tx hp =
        if nH < 1505775 then
          CheckStakeKernelHash env nH block
            ((env.readTxIndex txPrev.hash + 80) % 4294967296) txPrev
            txin.prevout tx.nTime hp
        else
          CheckStakeKernelHash env nH block (env.readTxIndex txPrev.hash) txPrev
            txin.prevout tx.nTime hp := by
  intro nH
  unfold CheckProofOfStake
  rw [if_pos hcs]
  simp only [hvin, hgt]
  rw [if_pos hsig]
  simp only [hrb]

/-- With a nonempty input list and, whenever the previous transaction
resolves, an in-bounds staked output index, CheckProofOfStake never takes an
out-of-bounds branch. -/
theorem cpos_no_oob (env : Env) (nH : Int) (tx : CTransaction) (hp : Nat)
    (hvin : tx.vin ≠ [])
    (hbound : ∀ txin txPrev bh, tx.vin.get? 0 = some txin →
      env.getTransaction txin.prevout.hash = some (txPrev, bh) →
      txin.prevout.n < txPrev.vout.length) :
    (CheckProofOfStake env nH tx hp).1 ≠ .error .ubOutOfBounds := by
  unfold CheckProofOfStake
  by_cases hcs : tx.isCoinStake = true
  · rw [if_pos hcs]
    cases hv : tx.vin.get? 0 with
    | none =>
      have hl := List.get?_eq_none.mp hv
      have : tx.vin = [] := List.eq_nil_of_length_eq_zero (by omega)
      exact absurd this hvin
    | some txin =>
      simp only [hv]
      cases hg : env.getTransaction txin.prevout.hash with
      | none => simp
      | some pr =>
        obtain ⟨txPrev, bh⟩ := pr
        simp only [hg]
        by_cases hs : env.verifySignature txPrev tx 0 true = true
        · rw [if_pos hs]
          cases hb : env.readBlock bh with
          | none => simp
          | some blk =>
            simp only [hb]
            have hlen := hbound txin txPrev bh hv hg
            by_cases hh : nH < 1505775
            · rw [if_pos hh]
              exact cskh_no_oob env nH blk
                ((env.readTxIndex txPrev.hash + 80) % 4294967296) txPrev
                txin.prevout tx.nTime hp hlen
            · rw [if_neg hh]
              exact cskh_no_oob env nH blk (env.readTxIndex txPrev.hash) txPrev
                txin.prevout tx.nTime hp hlen
        · rw [if_neg hs]
          simp
  · rw [if_neg hcs]
    simp

/-- C10: GetKernelStakeModifier and ComputeNextStakeModifier null their
by-reference StakeModifier output on entry and assign a non-null value only
on a successful hashing path, so on every failing return the caller-visible
output modifier is exactly the null (zero) modifier, never a partial or
stale value; in particular the incoming value of the reference never
influences the result. -/
theorem modifier_null_on_failure :
    (∀ (env : Env) (hashFrom x : Nat) (e : KErr),
        (GetKernelStakeModifier env hashFrom x).1 = .error e →
        (GetKernelStakeModifier env hashFrom x).2 = 0) ∧
    (∀ (env : Env) (p : Option BlockIndex) (tx : CTransaction) (x : Nat) (e : KErr),
        (ComputeNextStakeModifier env p tx x).1 = .error e →
        (ComputeNextStakeModifier env p tx x).2 = 0) ∧
    (∀ (env : Env) (hashFrom x : Nat),
        GetKernelStakeModifier env hashFrom x = GetKernelStakeModifier env hashFrom 0) ∧
    (∀ (env : Env) (p : Option BlockIndex) (tx : CTransaction) (x : Nat),
        ComputeNextStakeModifier env p tx x = ComputeNextStakeModifier env p tx 0) :=
  ⟨gksm_fail_zero, cnsm_fail_zero, fun _ _ _ => rfl, fun _ _ _ _ => rfl⟩

/-- Witness for C10: two concrete failing runs return the null modifier. -/
theorem modifier_null_on_failure_witness :
    (GetKernelStakeModifier testEnv 999 7).2 = 0 ∧
    (ComputeNextStakeModifier testEnv (some b0) stakeTx 7).2 = 0 :=
  ⟨modifier_null_on_failure.1 testEnv 999 7 .notIndexed (by decide),
   modifier_null_on_failure.2.1 testEnv (some b0) stakeTx 7 .prevTxNotFound (by decide)⟩

/-- C9: the kernel operations index into the consumed lists without bounds
checks — CheckStakeKernelHash reads output prevout.n of txPrev, and both
CheckProofOfStake and ComputeNextStakeModifier read input 0 of the
transaction; the out-of-bounds branch is unreachable exactly under the
preconditions that prevout.n is within the output count of the previous
transaction and that the transaction has at least one input, and it is
reached on concrete inputs violating them. -/
theorem kernel_indexing_preconditions :
    (∀ (env : Env) (nH : Int) (bf : CBlock) (off : Nat) (ptx : CTransaction)
        (po : COutPoint) (t hp : Nat), po.n < ptx.vout.length →
        (CheckStakeKernelHash env nH bf off ptx po t hp).1 ≠ .error .ubOutOfBounds) ∧
    (∀ (env : Env) (nH : Int) (tx : CTransaction) (hp : Nat), tx.vin ≠ [] →
        (∀ txin txPrev bh, tx.vin.get? 0 = some txin →
          env.getTransaction txin.prevout.hash = some (txPrev, bh) →
          txin.prevout.n < txPrev.vout.length) →
        (CheckProofOfStake env nH tx hp).1 ≠ .error .ubOutOfBounds) ∧
    (∀ (env : Env) (p : Option BlockIndex) (tx : CTransaction) (x : Nat),
        tx.vin ≠ [] →
        (ComputeNextStakeModifier env p tx x).1 ≠ .error .ubOutOfBounds) ∧
    (CheckStakeKernelHash testEnv 1 oobBlock 0 oobTx oobPo 200 0).1 =
      .error .ubOutOfBounds ∧
    (ComputeNextStakeModifier testEnv none oobTx 0).1 = .error .ubOutOfBounds ∧
    (CheckProofOfStake testEnv 1 oobStakeTx 0).1 = .error .ubOutOfBounds :=
  ⟨fun env nH bf off ptx po t hp h => cskh_no_oob env nH bf off ptx po t hp h,
   fun env nH tx hp h1 h2 => cpos_no_oob env nH tx hp h1 h2,
   fun env p tx x h => cnsm_no_oob env p tx x h,
   by decide, by decide, by decide⟩

/-- Witness for C9: under the in-bounds preconditions, concrete runs of the
three operations do not take the out-of-bounds branch. -/
theorem kernel_indexing_preconditions_witness :
    (CheckStakeKernelHash testEnv 1 bfTest 3 ptxTest poTest 151 9).1 ≠
      .error .ubOutOfBounds ∧
    (ComputeNextStakeModifier testEnv none stakeTx 0).1 ≠ .error .ubOutOfBounds :=
  ⟨kernel_indexing_preconditions.1 testEnv 1 bfTest 3 ptxTest poTest 151 9 (by decide),
   kernel_indexing_preconditions.2.2.1 testEnv none stakeTx 0 (by decide)⟩

/-- C2: when CheckStakeKernelHash reaches the hashing step, the value placed
in the hashProofOfStake output slot equals the chain hash of exactly the
fields stake modifier, blockFrom timestamp, prevTxOffset, prevTx timestamp,
prevout output index, candidate timestamp, serialized in that fixed order
(kernelStream), and this holds at every height — in particular at post-fork
heights, where only the target comparison uses right-shifted copies, the
output is still the unshifted hash. -/
theorem CheckStakeKernelHash_unshifted_hash (env : Env) (bf : CBlock)
    (off : Nat) (ptx : CTransaction) (po : COutPoint) (t hp : Nat)
    (out : CTxOut) (sm : Nat)
    (h1 : ¬ t < ptx.nTime)
    (h2 : ¬ t < (bf.nTime + env.stakeMinAge) % 4294967296)
    (h3 : ptx.vout.get? po.n = some out)
    (h4 : ¬ ((t : Int) - (ptx.nTime : Int) - (env.stakeMinAge : Int) ≤ 0))
    (h5 : GetKernelStakeModifier env bf.hash 0 = (.ok (), sm)) :
    ∀ nH : Int,
      (CheckStakeKernelHash env nH bf off ptx po t hp).2 =
        env.hashFn (kernelStream sm bf.nTime off ptx.nTime po.n t) := by
  intro nH
  rw [cskh_reach env bf off ptx po t hp out sm h1 h2 h3 h4 h5 nH]

/-- Witness for C2: the concrete post-fork run returns the unshifted stream
hash. -/
theorem CheckStakeKernelHash_unshifted_hash_witness :
    (CheckStakeKernelHash testEnv 1504351 bfTest 3 ptxTest poTest 151 9).2 =
      testEnv.hashFn (kernelStream 6 bfTest.nTime 3 ptxTest.nTime poTest.n 151) :=
  CheckStakeKernelHash_unshifted_hash testEnv bfTest 3 ptxTest poTest 151 9
    { nValue := 7 } 6 (by decide) (by decide) (by decide) (by decide) (by decide)
    1504351

/-- C1: for every input tuple that reaches the hashing step,
CheckStakeKernelHash applies the difficulty-target comparison if and only if
the height exceeds 1504350 — at every height up to and including 1504350 the
result is plain success with the raw hash and no target comparison, at every
height from 1504351 on the status is exactly the post-fork target check —
and the raw hashProofOfStake output is identical on both sides of the
boundary. -/
theorem CheckStakeKernelHash_height_gate (env : Env) (bf : CBlock) (off : Nat)
    (ptx : CTransaction) (po : COutPoint) (t hp : Nat) (out : CTxOut) (sm : Nat)
    (h1 : ¬ t < ptx.nTime)
    (h2 : ¬ t < (bf.nTime + env.stakeMinAge) % 4294967296)
    (h3 : ptx.vout.get? po.n = some out)
    (h4 : ¬ ((t : Int) - (ptx.nTime : Int) - (env.stakeMinAge : Int) ≤ 0))
    (h5 : GetKernelStakeModifier env bf.hash 0 = (.ok (), sm)) :
    (∀ nH : Int, nH ≤ 1504350 →
        CheckStakeKernelHash env nH bf off ptx po t hp =
          (.ok (), env.hashFn (kernelStream sm bf.nTime off ptx.nTime po.n t))) ∧
    (∀ nH : Int, 1504350 < nH →
        CheckStakeKernelHash env nH bf off ptx po t hp =
          (postForkTargetCheck env
              ((t : Int) - (ptx.nTime : Int) - (env.stakeMinAge : Int)) out.nValue
              (env.hashFn (kernelStream sm bf.nTime off ptx.nTime po.n t)),
            env.hashFn (kernelStream sm bf.nTime off ptx.nTime po.n t))) ∧
    (CheckStakeKernelHash env 1504350 bf off ptx po t hp).2 =
      (CheckStakeKernelHash env 1504351 bf off ptx po t hp).2 := by
  refine ⟨?_, ?_, ?_⟩
  · intro nH hn
    rw [cskh_reach env bf off ptx po t hp out sm h1 h2 h3 h4 h5 nH,
      if_neg (by omega : ¬ (1504350 : Int) < nH)]
  · intro nH hn
    rw [cskh_reach env bf off ptx po t hp out sm h1 h2 h3 h4 h5 nH, if_pos hn]
  · rw [cskh_reach env bf off ptx po t hp out sm h1 h2 h3 h4 h5 1504350,
      cskh_reach env bf off ptx po t hp out sm h1 h2 h3 h4 h5 1504351]

/-- Witness for C1: at the boundary heights, the concrete run succeeds with
no comparison at 1504350 and yields the same raw hash at 1504351. -/
theorem CheckStakeKernelHash_height_gate_witness :
    CheckStakeKernelHash testEnv 1504350 bfTest 3 ptxTest poTest 151 9 =
      (.ok (), testEnv.hashFn (kernelStream 6 bfTest.nTime 3 ptxTest.nTime poTest.n 151)) ∧
    (CheckStakeKernelHash testEnv 1504350 bfTest 3 ptxTest poTest 151 9).2 =
      (CheckStakeKernelHash testEnv 1504351 bfTest 3 ptxTest poTest 151 9).2 := by
  have h := CheckStakeKernelHash_height_gate testEnv bfTest 3 ptxTest poTest 151 9
    { nValue := 7 } 6 (by decide) (by decide) (by decide) (by decide) (by decide)
  exact ⟨h.1 1504350 (by decide), h.2.2⟩

/-- C3: in the post-fork branch, with reduction the 256-bit unsigned product
of the time weight and the staked output value, and shift 64 minus the count
of zero digits in the fixed-width 64-digit hexadecimal rendering of
reduction, the candidate is accepted exactly when the hash shifted right by
20 bits and then by shift more bits is at most the decoded target, and
otherwise fails with targetNotMet. -/
theorem CheckStakeKernelHash_postfork_comparison (env : Env) (bf : CBlock)
    (off : Nat) (ptx : CTransaction) (po : COutPoint) (t hp : Nat)
    (out : CTxOut) (sm : Nat) (nH : Int)
    (h1 : ¬ t < ptx.nTime)
    (h2 : ¬ t < (bf.nTime + env.stakeMinAge) % 4294967296)
    (h3 : ptx.vout.get? po.n = some out)
    (h4 : ¬ ((t : Int) - (ptx.nTime : Int) - (env.stakeMinAge : Int) ≤ 0))
    (h5 : GetKernelStakeModifier env bf.hash 0 = (.ok (), sm))
    (ht32 : t < 4294967296)
    (hv0 : 0 ≤ out.nValue) (hv64 : out.nValue < 18446744073709551616)
    (hneg : env.targetNegative = false) (hovf : env.targetOverflow = false)
    (htz : env.nextTarget ≠ 0) (hpl : env.nextTarget ≤ env.posLimit)
    (hfork : 1504350 < nH) :
    ((CheckStakeKernelHash env nH bf off ptx po t hp).1 = .ok () ↔
      env.hashFn (kernelStream sm bf.nTime off ptx.nTime po.n t) / 2 ^ 20 /
          2 ^ (64 - countZeroHexDigits
            (((t - ptx.nTime - env.stakeMinAge) * out.nValue.toNat) % 2 ^ 256)) ≤
        env.nextTarget) ∧
    (env.nextTarget <
        env.hashFn (kernelStream sm bf.nTime off ptx.nTime po.n t) / 2 ^ 20 /
          2 ^ (64 - countZeroHexDigits
            (((t - ptx.nTime - env.stakeMinAge) * out.nValue.toNat) % 2 ^ 256)) →
      (CheckStakeKernelHash env nH bf off ptx po t hp).1 =
        .error .targetNotMet) := by
  have h64 : ((2 ^ 64 : Nat) : Int) = 18446744073709551616 := by norm_num
  have hred : natOfUInt64 ((t : Int) - (ptx.nTime : Int) - (env.stakeMinAge : Int)) =
      t - ptx.nTime - env.stakeMinAge := by
    unfold natOfUInt64
    rw [h64]
    omega
  have hval : natOfUInt64 out.nValue = out.nValue.toNat := by
    unfold natOfUInt64
    rw [h64]
    omega
  have hc : ¬ (env.targetNegative = true ∨ env.nextTarget = 0 ∨
      env.targetOverflow = true ∨ env.posLimit < env.nextTarget) := by
    rw [hneg, hovf]
    simp
    omega
  rw [cskh_reach env bf off ptx po t hp out sm h1 h2 h3 h4 h5 nH, if_pos hfork]
  unfold postForkTargetCheck
  rw [if_neg hc, hred, hval]
  by_cases hcmp : env.nextTarget <
      env.hashFn (kernelStream sm bf.nTime off ptx.nTime po.n t) / 2 ^ 20 /
        2 ^ (64 - countZeroHexDigits
          (((t - ptx.nTime - env.stakeMinAge) * out.nValue.toNat) % 2 ^ 256))
  · rw [if_pos hcmp]
    refine ⟨⟨?_, ?_⟩, fun _ => rfl⟩
    · intro hcon
      exact absurd hcon (by simp)
    · intro hle
      exact absurd hle (by omega)
  · rw [if_neg hcmp]
    refine ⟨⟨?_, ?_⟩, fun hlt => absurd hlt hcmp⟩
    · intro _
      omega
    · intro _
      rfl

/-- Witness for C3: on the concrete post-fork run the reduced hash is 0,
which is at most the target 5, so the concrete run is accepted. -/
theorem CheckStakeKernelHash_postfork_comparison_witness :
    (CheckStakeKernelHash testEnv 1504351 bfTest 3 ptxTest poTest 151 9).1 =
      .ok () :=
  (CheckStakeKernelHash_postfork_comparison testEnv bfTest 3 ptxTest poTest 151 9
    { nValue := 7 } 6 1504351 (by decide) (by decide) (by decide) (by decide)
    (by decide) (by decide) (by decide) (by decide) (by decide) (by decide)
    (by decide) (by decide) (by decide)).1.mpr (by decide)

/-- C4: the stake-modifier selector takes its lookahead distance from the
current chain-tip height only — 5 when the tip height is below 1504350, 180
from 1504350 on, whatever the height of the reference block — walks forward
exactly that many next-block links from the resolved reference block, and
fails with insufficientDepth rather than returning a modifier whenever fewer
forward links exist. -/
theorem GetKernelStakeModifier_lookahead_walk (env : Env) (tip p : BlockIndex)
    (hashFrom x : Nat)
    (hwf : wfFrom 0 none env.chain = true)
    (htip : env.chain.getLast? = some tip)
    (hlook : lookupBlockIndex env hashFrom = some p) :
    (tip.nHeight < 1504350 → lookahead tip = 5) ∧
    (1504350 ≤ tip.nHeight → lookahead tip = 180) ∧
    (∀ i, env.chain.get? i = some p →
      (∀ q, env.chain.get? (i + lookahead tip) = some q →
          GetKernelStakeModifier env hashFrom x = ancestorTupleHash env q) ∧
      (env.chain.get? (i + lookahead tip) = none →
          GetKernelStakeModifier env hashFrom x = (.error .insufficientDepth, 0))) := by
  refine ⟨?_, ?_, ?_⟩
  · intro h
    unfold lookahead
    rw [if_neg (by omega)]
  · intro h
    unfold lookahead
    rw [if_pos h]
  · intro i hpos
    exact gksm_onChain env tip p hashFrom x i hwf htip hlook hpos

/-- Witness for C4: on the six-block test chain with tip height 5, the
lookahead is 5; the walk from the genesis entry lands exactly on the tip and
reads its ancestors, while the walk from the height-1 entry runs out of
forward links and fails with insufficient depth. -/
theorem GetKernelStakeModifier_lookahead_walk_witness :
    lookahead b5 = 5 ∧
    GetKernelStakeModifier testEnv 100 0 = ancestorTupleHash testEnv b5 ∧
    GetKernelStakeModifier testEnv 101 0 = (.error .insufficientDepth, 0) := by
  have h0 := GetKernelStakeModifier_lookahead_walk testEnv b5 b0 100 0
    (by decide) (by decide) (by decide)
  have h1 := GetKernelStakeModifier_lookahead_walk testEnv b5 b1 101 0
    (by decide) (by decide) (by decide)
  exact ⟨h0.1 (by decide), (h0.2.2 0 (by decide)).1 b5 (by decide),
    (h1.2.2 1 (by decide)).2 (by decide)⟩

/-- C5: for every transaction flagged coinstake whose external lookups
succeed, CheckProofOfStake passes offset + 80 to the kernel check when the
height is below 1505775 and the offset unmodified from 1505775 on — so at
height 1505774 it adds 80 and at height 1505775 it does not — with all other
arguments to the kernel check identical in both branches. -/
theorem CheckProofOfStake_offset_correction (env : Env) (tx : CTransaction)
    (hp : Nat) (txin : CTxIn) (txPrev : CTransaction) (bh : Nat) (block : CBlock)
    (hcs : tx.isCoinStake = true)
    (hvin : tx.vin.get? 0 = some txin)
    (hgt : env.getTransaction txin.prevout.hash = some (txPrev, bh))
    (hsig : env.verifySignature txPrev tx 0 true = true)
    (hrb : env.readBlock bh = some block)
    (hoff : env.readTxIndex txPrev.hash + 80 < 4294967296) :
    (∀ nH : Int, nH < 1505775 →
        CheckProofOfStake env nH tx hp =
          CheckStakeKernelHash env nH block (env.readTxIndex txPrev.hash + 80)
            txPrev txin.prevout tx.nTime hp) ∧
    (∀ nH : Int, 1505775 ≤ nH →
        CheckProofOfStake env nH tx hp =
          CheckStakeKernelHash env nH block (env.readTxIndex txPrev.hash)
            txPrev txin.prevout tx.nTime hp) ∧
    CheckProofOfStake env 1505774 tx hp =
      CheckStakeKernelHash env 1505774 block (env.readTxIndex txPrev.hash + 80)
        txPrev txin.prevout tx.nTime hp ∧
    CheckProofOfStake env 1505775 tx hp =
      CheckStakeKernelHash env 1505775 block (env.readTxIndex txPrev.hash)
        txPrev txin.prevout tx.nTime hp := by
  have hmod : (env.readTxIndex txPrev.hash + 80) % 4294967296 =
      env.readTxIndex txPrev.hash + 80 := Nat.mod_eq_of_lt hoff
  have hw := cpos_reach env tx hp txin txPrev bh block hcs hvin hgt hsig hrb
  refine ⟨?_, ?_, ?_, ?_⟩
  · intro nH hn
    rw [hw nH, if_pos hn, hmod]
  · intro nH hn
    rw [hw nH, if_neg (by omega)]
  · rw [hw 1505774, if_pos (by norm_num), hmod]
  · rw [hw 1505775, if_neg (by norm_num)]

/-- Witness for C5: the concrete coinstake run adds 80 to the indexed offset
1000 at height 1505774 and passes 1000 unmodified at height 1505775. -/
theorem CheckProofOfStake_offset_correction_witness :
    CheckProofOfStake env5 1505774 stakeTx 9 =
      CheckStakeKernelHash env5 1505774 bfTest 1080 ptxTest
        { hash := 77, n := 0 } 151 9 ∧
    CheckProofOfStake env5 1505775 stakeTx 9 =
      CheckStakeKernelHash env5 1505775 bfTest 1000 ptxTest
        { hash := 77, n := 0 } 151 9 := by
  have h := CheckProofOfStake_offset_correction env5 stakeTx 9
    { prevout := { hash := 77, n := 0 } } ptxTest 400 bfTest
    (by decide) (by decide) (by decide) (by decide) (by decide) (by decide)
  exact ⟨h.2.2.1, h.2.2.2⟩

/-- Counterexample for C6: the block-index entry b2 has exactly two proper
ancestors (b1 and b0), not three, yet ComputeNextStakeModifier on a coinbase
recomputes a non-null modifier from it — refuting that the modifier is
recomputed only when at least three ancestor blocks exist above
previousBlockIndex. -/
theorem ComputeNextStakeModifier_two_ancestor_recompute :
    properAncestorCount b2 = 2 ∧
    ComputeNextStakeModifier testEnv (some b2) coinbaseTx 0 =
      (.ok (), testEnv.hashFn (ancestorStream b2 b1 b0)) ∧
    testEnv.hashFn (ancestorStream b2 b1 b0) ≠ 0 := by
  decide

/-- C6 as amended: for a coinbase transaction, ComputeNextStakeModifier
recomputes the modifier exactly when the parent and the grandparent of
previousBlockIndex exist (two proper ancestors, that is three blocks of
history counting previousBlockIndex itself); the recomputed value is the
hash of the six-value tuple — stake modifier and proof-of-stake hash of
previousBlockIndex, its parent and its grandparent, in that fixed order —
anchored at previousBlockIndex itself rather than through the forward walk;
with fewer ancestors the modifier is left null and the call succeeds. -/
theorem ComputeNextStakeModifier_coinbase_guard (env : Env) (p pp ppp : BlockIndex)
    (tx : CTransaction) (x : Nat)
    (hn : tx.isNull = false) (hc : tx.isCoinBase = true) :
    (p.pprev = some pp → pp.pprev = some ppp →
        ComputeNextStakeModifier env (some p) tx x =
          (.ok (), env.hashFn (ancestorStream p pp ppp))) ∧
    (p.pprev = none →
        ComputeNextStakeModifier env (some p) tx x = (.ok (), 0)) ∧
    (p.pprev = some pp → pp.pprev = none →
        ComputeNextStakeModifier env (some p) tx x = (.ok (), 0)) := by
  have hb : ¬ tx.isNull = true := by simp [hn]
  refine ⟨?_, ?_, ?_⟩
  · intro ha1 ha2
    unfold ComputeNextStakeModifier
    rw [if_neg hb, if_pos hc]
    simp only [ha1, ha2]
  · intro ha1
    unfold ComputeNextStakeModifier
    rw [if_neg hb, if_pos hc]
    simp only [ha1]
  · intro ha1 ha2
    unfold ComputeNextStakeModifier
    rw [if_neg hb, if_pos hc]
    simp only [ha1, ha2]

/-- Witness for the amended C6: with two ancestors present the concrete
coinbase run hashes the six-value tuple anchored at b2, and with one
ancestor (b1) it leaves the modifier null and succeeds. -/
theorem ComputeNextStakeModifier_coinbase_guard_witness :
    ComputeNextStakeModifier testEnv (some b2) coinbaseTx 0 =
      (.ok (), testEnv.hashFn (ancestorStream b2 b1 b0)) ∧
    ComputeNextStakeModifier testEnv (some b1) coinbaseTx 0 = (.ok (), 0) :=
  ⟨(ComputeNextStakeModifier_coinbase_guard testEnv b2 b1 b0 coinbaseTx 0
      rfl rfl).1 rfl rfl,
   (ComputeNextStakeModifier_coinbase_guard testEnv b1 b0 b0 coinbaseTx 0
      rfl rfl).2.2 rfl rfl⟩

/-- Counterexample for C7: on the flat six-entry chain the forward walk of
GetKernelStakeModifier succeeds (the remaining counter is 0) and lands on an
entry whose parent link is absent; the source then dereferences the missing
ancestor without any guard — modelled as the distinguished ubNullDeref
outcome — instead of failing with insufficientDepth as the claim states. -/
theorem GetKernelStakeModifier_missing_ancestor_counterexample :
    (walkForward flatEnv.chain (lookahead f5) f0).2 = 0 ∧
    (walkForward flatEnv.chain (lookahead f5) f0).1.pprev = none ∧
    GetKernelStakeModifier flatEnv 300 0 = (.error .ubNullDeref, 0) ∧
    KErr.ubNullDeref ≠ KErr.insufficientDepth := by
  decide

/-- C7 as amended: GetKernelStakeModifier reads the parent and grandparent
of the selected block without any guard (a missing ancestor is undefined
behaviour, not an insufficientDepth failure); however, on a well-formed
nonempty active chain a successful forward walk of at least five links
guarantees that both ancestors exist, so the unguarded missing-ancestor
branch is never reached. -/
theorem GetKernelStakeModifier_wellformed_no_missing_ancestor (env : Env)
    (hwf : wfFrom 0 none env.chain = true) (hne : env.chain ≠ [])
    (hashFrom x : Nat) :
    (GetKernelStakeModifier env hashFrom x).1 ≠ .error .ubNullDeref := by
  rcases hl : lookupBlockIndex env hashFrom with _ | p
  · simp [GetKernelStakeModifier, hl]
  · rcases htp : env.chain.getLast? with _ | tip
    · exact absurd (List.getLast?_eq_none_iff.mp htp) hne
    · by_cases hc : env.chain.get? p.nHeight = some p
      · rcases hq : env.chain.get? (p.nHeight + lookahead tip) with _ | q
        · have hd := (gksm_onChain env tip p hashFrom x p.nHeight hwf htp hl hc).2 hq
          rw [hd]
          simp
        · have hgk := (gksm_onChain env tip p hashFrom x p.nHeight hwf htp hl hc).1 q hq
          rw [hgk]
          have hlk5 : 5 ≤ lookahead tip := by
            unfold lookahead
            split <;> omega
          have hjlt : p.nHeight + lookahead tip < env.chain.length := by
            rcases List.get?_eq_some.mp hq with ⟨hlt, _⟩
            exact hlt
          have hq1 : ∃ q1, env.chain.get? (p.nHeight + lookahead tip - 1) = some q1 := by
            cases hx : env.chain.get? (p.nHeight + lookahead tip - 1) with
            | some q1 => exact ⟨q1, rfl⟩
            | none =>
              have := List.get?_eq_none.mp hx
              omega
          obtain ⟨q1, hq1⟩ := hq1
          have hq2 : ∃ q2, env.chain.get? (p.nHeight + lookahead tip - 2) = some q2 := by
            cases hx : env.chain.get? (p.nHeight + lookahead tip - 2) with
            | some q2 => exact ⟨q2, rfl⟩
            | none =>
              have := List.get?_eq_none.mp hx
              omega
          obtain ⟨q2, hq2⟩ := hq2
          have hpq : q.pprev = some q1 := by
            have hw := wfFrom_pprev env.chain 0 none hwf (p.nHeight + lookahead tip) q hq
            rw [if_neg (by omega)] at hw
            rw [hw]
            exact hq1
          have hpq2 : q1.pprev = some q2 := by
            have hw := wfFrom_pprev env.chain 0 none hwf
              (p.nHeight + lookahead tip - 1) q1 hq1
            rw [if_neg (by omega)] at hw
            rw [hw, show p.nHeight + lookahead tip - 1 - 1 =
              p.nHeight + lookahead tip - 2 by omega]
            exact hq2
          simp [ancestorTupleHash, hpq, hpq2]
      · have hcn : chainNext env.chain p = none := by
          unfold chainNext
          rw [if_neg hc]
        have hlk : 0 < lookahead tip := by
          unfold lookahead
          split <;> omega
        have hpos : 0 < (walkForward env.chain (lookahead tip) p).2 := by
          cases hn : lookahead tip with
          | zero => omega
          | succ m =>
            rw [walkForward_succ, hcn]
            simp
        simp [GetKernelStakeModifier, hl, htp, if_pos hpos]

/-- Witness for the amended C7: on the well-formed six-block test chain no
run of the selector hits the unguarded missing-ancestor branch. -/
theorem GetKernelStakeModifier_wellformed_no_missing_ancestor_witness :
    (GetKernelStakeModifier testEnv 100 0).1 ≠ .error .ubNullDeref :=
  GetKernelStakeModifier_wellformed_no_missing_ancestor testEnv
    (by decide) (by decide) 100 0

/-- Counterexample for C8: with block timestamp 0, previous-transaction
timestamp 100 and stake minimum age 50, the candidate time 120 is strictly
below prevTx.timestamp + stakeMinAge = 150, yet CheckStakeKernelHash fails
with nonPositiveWeight — neither minimumAgeViolation nor timestampViolation
— because the minimum-age gate compares against the block timestamp, not the
transaction timestamp. -/
theorem CheckStakeKernelHash_age_gate_counterexample :
    120 < ptxTest.nTime + testEnv.stakeMinAge ∧
    CheckStakeKernelHash testEnv 1 bfZero 0 ptxTest poTest 120 9 =
      (.error .nonPositiveWeight, 9) ∧
    KErr.nonPositiveWeight ≠ KErr.timestampViolation ∧
    KErr.nonPositiveWeight ≠ KErr.minimumAgeViolation := by
  decide

/-- C8 as amended: the bound separating the two timestamp errors from the
rest is max(prevTx.timestamp, blockFrom.timestamp + stakeMinAge): every
candidate time strictly below it makes CheckStakeKernelHash fail with
timestampViolation or minimumAgeViolation, and every candidate time at or
past it never produces either of those two errors (whatever else happens
downstream). -/
theorem CheckStakeKernelHash_age_gate (env : Env) (bf : CBlock) (off : Nat)
    (ptx : CTransaction) (po : COutPoint) (hp : Nat) (t : Nat) (nH : Int)
    (hov : bf.nTime + env.stakeMinAge < 4294967296) :
    (t < max ptx.nTime (bf.nTime + env.stakeMinAge) →
        (CheckStakeKernelHash env nH bf off ptx po t hp).1 =
          .error .timestampViolation ∨
        (CheckStakeKernelHash env nH bf off ptx po t hp).1 =
          .error .minimumAgeViolation) ∧
    (max ptx.nTime (bf.nTime + env.stakeMinAge) ≤ t →
        ∀ e, (CheckStakeKernelHash env nH bf off ptx po t hp).1 = .error e →
          e ≠ .timestampViolation ∧ e ≠ .minimumAgeViolation) := by
  constructor
  · intro hlt
    by_cases h1 : t < ptx.nTime
    · left
      unfold CheckStakeKernelHash
      rw [if_pos h1]
    · right
      have h2 : t < (bf.nTime + env.stakeMinAge) % 4294967296 := by
        rw [Nat.mod_eq_of_lt hov]
        omega
      unfold CheckStakeKernelHash
      rw [if_neg h1, if_pos h2]
  · intro hge e he
    have h1 : ¬ t < ptx.nTime := by omega
    have h2 : ¬ t < (bf.nTime + env.stakeMinAge) % 4294967296 := by
      rw [Nat.mod_eq_of_lt hov]
      omega
    unfold CheckStakeKernelHash at he
    rw [if_neg h1, if_neg h2] at he
    cases h3 : ptx.vout.get? po.n with
    | none =>
      simp only [h3] at he
      simp at he
      subst he
      exact ⟨by decide, by decide⟩
    | some out =>
      simp only [h3] at he
      by_cases h4 : (t : Int) - (ptx.nTime : Int) - (env.stakeMinAge : Int) ≤ 0
      · rw [if_pos h4] at he
        simp at he
        subst he
        exact ⟨by decide, by decide⟩
      · rw [if_neg h4] at he
        cases h5 : GetKernelStakeModifier env bf.hash 0 with
        | mk fst snd =>
          cases fst with
          | error e1 =>
            simp only [h5] at he
            simp at he
            subst he
            have hm : (GetKernelStakeModifier env bf.hash 0).1 = .error e1 := by
              rw [h5]
            rcases gksm_err_mem env bf.hash 0 e1 hm with rfl | rfl | rfl <;>
              exact ⟨by decide, by decide⟩
          | ok u =>
            cases u
            simp only [h5] at he
            by_cases h6 : 1504350 < nH
            · rw [if_pos h6] at he
              try simp at he
              rcases postFork_err_mem env
                  ((t : Int) - (ptx.nTime : Int) - (env.stakeMinAge : Int))
                  out.nValue
                  (env.hashFn (kernelStream snd bf.nTime off ptx.nTime po.n t)) e he
                with rfl | rfl <;> exact ⟨by decide, by decide⟩
            · rw [if_neg h6] at he
              simp at he

/-- Witness for the amended C8: below the bound max(100, 150) = 150 the
concrete run at time 120 fails with one of the two timestamp errors. -/
theorem CheckStakeKernelHash_age_gate_witness :
    (CheckStakeKernelHash testEnv 1 bfTest 0 ptxTest poTest 120 9).1 =
      .error .timestampViolation ∨
    (CheckStakeKernelHash testEnv 1 bfTest 0 ptxTest poTest 120 9).1 =
      .error .minimumAgeViolation :=
  (CheckStakeKernelHash_age_gate testEnv bfTest 0 ptxTest poTest 9 120 1
    (by decide)).1 (by decide)
